import Mathlib

/-!
# Verification of the webgl-wrapper binding-cache and mesh subsystem

This file gives a shallow embedding of the Rust sources of `webgl-wrapper`
(`context.rs`, `surface.rs`, `framebuffer.rs`, `program.rs`, `texture.rs`,
`mesh.rs`) and proves properties of the embedded operations.

Modelling conventions:

* Every call into the underlying `WebGl2RenderingContext` is recorded as a
  `GlCall` event; an operation of the library is embedded as a function from
  the mutable cache state (`GlContextCache`) to the new cache state together
  with the list of device calls it issued, in order.
* Native handles (`WebGlProgram`, `WebGlBuffer`, ...) and the process-unique
  ids generated by the `uid` crate are both modelled as `Nat`.
* `u16` / `u32` / `i32` machine integers are modelled as `Nat` / `Int`.
  A Rust `assert!`/`assert_eq!`/`panic!`, a division by zero, and an
  arithmetic overflow of a `u16` addition (a Rust program error, a panic in
  checked builds) are all modelled as the operation returning `none`.
* `uniforms.update` (a block of mechanical 1:1 uniform-setter wrappers,
  outside the modelled core) is recorded as the single marker event
  `GlCall.updateUniforms`.
-/

namespace WebglWrapper

/-- Draw versus read framebuffer target (`DRAW_FRAMEBUFFER` / `READ_FRAMEBUFFER`). -/
inductive FbTarget
  | draw
  | read
deriving DecidableEq, Repr

/-- The two raster flags toggled by `DrawMode::bind` (`GlFlag` in `context.rs`). -/
inductive GlFlag
  | depthTest
  | cullFace
deriving DecidableEq, Repr

/-- The `TEXTURE_2D` GL constant (the target cached in `bound_textures`). -/
def TEXTURE_2D : Nat := 3553

/-- The `TEXTURE0` GL constant. -/
def TEXTURE0 : Nat := 33984

/-- The `ARRAY_BUFFER` GL constant. -/
def ARRAY_BUFFER : Nat := 34962

/-- One call issued to the underlying device context, in the order issued. -/
inductive GlCall
  | useProgram (handle : Nat)
  | bindFramebuffer (target : FbTarget) (fb : Option Nat)
  | viewport (x y w h : Int)
  | bindVertexArray (vao : Nat)
  | bindBuffer (target : Nat) (buffer : Nat)
  | activeTexture (unit : Nat)
  | bindTexture (target : Nat) (handle : Nat)
  | enableFlag (f : GlFlag)
  | disableFlag (f : GlFlag)
  | enableVertexAttribArray (loc : Nat)
  | vertexAttribPointer (loc : Nat) (size : Int) (strideBytes : Int) (offsetBytes : Int)
  | vertexAttribDivisor (loc : Nat) (divisor : Nat)
  | bufferData (target : Nat) (len : Nat)
  | updateUniforms
  | drawElements (mode : Nat) (count : Nat)
  | drawElementsInstanced (mode : Nat) (count : Nat) (instances : Nat)
deriving DecidableEq, Repr

/-- `DrawMode` from `mesh.rs`. -/
inductive DrawMode
  | Draw2D
  | Draw3D
deriving DecidableEq, Repr

/-- `GlContextCache` from `context.rs`: the identity of whatever is currently
bound to each tracked slot.  `bound_textures` is the 32-entry array, modelled
as a list of length 32 holding `(target, TextureId)` pairs. -/
structure GlContextCache where
  draw_mode : Option DrawMode
  bound_program : Option Nat
  bound_framebuffer : Option Nat
  bound_read_framebuffer : Option Nat
  bound_textures : List (Option (Nat × Nat))
deriving DecidableEq, Repr

/-- `GlContextCache::new()`: every slot starts unbound. -/
def GlContextCache.new : GlContextCache :=
  { draw_mode := none
    bound_program := none
    bound_framebuffer := none
    bound_read_framebuffer := none
    bound_textures := List.replicate 32 none }

/-- `Rect<i32>` from `rect.rs`, with the two `Point2<i32>` corners flattened
into four fields (`start.x`, `start.y`, `end.x`, `end.y`). -/
structure Rect where
  startX : Int
  startY : Int
  endX : Int
  endY : Int
deriving DecidableEq, Repr

/-- `GlContext::viewport` from `context.rs`: issues
`viewport(start.x, start.y, end.x - start.x, end.y - start.y)`. -/
def contextViewport (r : Rect) : GlCall :=
  .viewport r.startX r.startY (r.endX - r.startX) (r.endY - r.startY)

/-- The `u32 as i32` cast used when a canvas size is turned into a viewport. -/
def toI32 (n : Nat) : Int :=
  if n % 4294967296 < 2147483648 then ((n % 4294967296 : Nat) : Int)
  else ((n % 4294967296 : Nat) : Int) - 4294967296

/-- `GlProgram` from `program.rs`, reduced to its process-unique `ProgramId`
and its native handle. -/
structure GlProgram where
  id : Nat
  handle : Nat
deriving DecidableEq, Repr

/-- `GlProgram::bind`: elided through `cache.bound_program`. -/
def GlProgram.bind (p : GlProgram) (c : GlContextCache) : GlContextCache × List GlCall :=
  if c.bound_program = some p.id then (c, [])
  else ({ c with bound_program := some p.id }, [.useProgram p.handle])

/-- `ScreenSurface` from `surface.rs`.  The canvas is modelled by its
width/height, which `set_size` keeps equal to `size`. -/
structure ScreenSurface where
  viewport : Rect
  size : Nat × Nat
  canvasWidth : Nat
  canvasHeight : Nat
  id : Nat
deriving DecidableEq, Repr

/-- `ScreenSurface::set_size`: updates canvas, viewport rectangle and size,
then re-applies the device viewport only when this surface is the currently
bound draw target. -/
def ScreenSurface.set_size (s : ScreenSurface) (c : GlContextCache) (newSize : Nat × Nat) :
    ScreenSurface × List GlCall :=
  let vp : Rect := ⟨0, 0, toI32 newSize.1, toI32 newSize.2⟩
  ({ s with viewport := vp, size := newSize,
            canvasWidth := newSize.1, canvasHeight := newSize.2 },
   if c.bound_framebuffer = some s.id then [contextViewport vp] else [])

/-- `impl Surface for ScreenSurface`, `bind`: binds the default framebuffer
(`None`) to the draw target and sets the viewport, elided through
`cache.bound_framebuffer`. -/
def ScreenSurface.bind (s : ScreenSurface) (c : GlContextCache) :
    GlContextCache × List GlCall :=
  if c.bound_framebuffer = some s.id then (c, [])
  else ({ c with bound_framebuffer := some s.id },
        [.bindFramebuffer .draw none, contextViewport s.viewport])

/-- `impl Surface for ScreenSurface`, `bind_read`: read-target slot, never
touches the viewport. -/
def ScreenSurface.bind_read (s : ScreenSurface) (c : GlContextCache) :
    GlContextCache × List GlCall :=
  if c.bound_read_framebuffer = some s.id then (c, [])
  else ({ c with bound_read_framebuffer := some s.id },
        [.bindFramebuffer .read none])

/-- `Framebuffer<A>` from `framebuffer.rs`, reduced to its native handle, the
size of its attachment, its viewport rectangle and its `FramebufferId`. -/
structure Framebuffer where
  framebuffer : Nat
  attachmentSize : Nat × Nat
  viewport : Rect
  id : Nat
deriving DecidableEq, Repr

/-- `impl Surface for Framebuffer`, `bind`. -/
def Framebuffer.bind (f : Framebuffer) (c : GlContextCache) :
    GlContextCache × List GlCall :=
  if c.bound_framebuffer = some f.id then (c, [])
  else ({ c with bound_framebuffer := some f.id },
        [.bindFramebuffer .draw (some f.framebuffer), contextViewport f.viewport])

/-- `impl Surface for Framebuffer`, `bind_read`. -/
def Framebuffer.bind_read (f : Framebuffer) (c : GlContextCache) :
    GlContextCache × List GlCall :=
  if c.bound_read_framebuffer = some f.id then (c, [])
  else ({ c with bound_read_framebuffer := some f.id },
        [.bindFramebuffer .read (some f.framebuffer)])

/-- A value implementing the `Surface` trait: the screen or a framebuffer. -/
inductive Surf
  | screen (s : ScreenSurface)
  | offscreen (f : Framebuffer)
deriving DecidableEq, Repr

/-- The `FramebufferId` identity a surface caches itself under. -/
def Surf.id : Surf → Nat
  | .screen s => s.id
  | .offscreen f => f.id

/-- Trait dispatch of `Surface::bind`. -/
def Surf.bind : Surf → GlContextCache → GlContextCache × List GlCall
  | .screen s, c => s.bind c
  | .offscreen f, c => f.bind c

/-- Trait dispatch of `Surface::bind_read`. -/
def Surf.bind_read : Surf → GlContextCache → GlContextCache × List GlCall
  | .screen s, c => s.bind_read c
  | .offscreen f, c => f.bind_read c

/-- `Texture2d` from `texture.rs`, reduced to its native handle and its
process-unique `TextureId`. -/
structure Texture2d where
  texture : Nat
  id : Nat
deriving DecidableEq, Repr

/-- `Texture2d::bind(texture_unit)`: elided through the per-unit entry of
`cache.bound_textures`, whose cached identity is the `(TEXTURE_2D, id)` pair. -/
def Texture2d.bind (t : Texture2d) (unit : Nat) (c : GlContextCache) :
    GlContextCache × List GlCall :=
  if c.bound_textures.getD unit none = some (TEXTURE_2D, t.id) then (c, [])
  else ({ c with bound_textures := c.bound_textures.set unit (some (TEXTURE_2D, t.id)) },
        [.activeTexture (TEXTURE0 + unit), .bindTexture TEXTURE_2D t.texture])

/-- `DrawMode::bind` from `mesh.rs`: elided through `cache.draw_mode`. -/
def DrawMode.bind (m : DrawMode) (c : GlContextCache) : GlContextCache × List GlCall :=
  if c.draw_mode = some m then (c, [])
  else ({ c with draw_mode := some m },
        match m with
        | .Draw2D => [.disableFlag .cullFace, .disableFlag .depthTest]
        | .Draw3D => [.enableFlag .cullFace, .enableFlag .depthTest])

/-- `Attributes` from `program.rs`: the ordered list of
(attribute name, component count in floats) pairs; counts are `i32`. -/
abbrev Attributes := List (String × Int)

/-- `Vertex::stride` from `program.rs`: the sum of the declared component
counts. -/
def stride (attrs : Attributes) : Int :=
  (attrs.map fun p => p.2).sum

/-- `setup_vertex_attrib` from `mesh.rs`: enables one attribute slot and
points it at `FLOAT` data with byte stride `stride * 4` and byte offset
`offset * 4`; when `instanced` it also sets a per-instance divisor of 1. -/
def setup_vertex_attrib (loc : Nat) (size strideV offset : Int) (instanced : Bool) :
    List GlCall :=
  [.enableVertexAttribArray loc,
   .vertexAttribPointer loc size (strideV * 4) (offset * 4)] ++
  (if instanced then [.vertexAttribDivisor loc 1] else [])

/-- The loop body of `setup_vertex_attribs` from `mesh.rs`, generalized over
the running float offset.  `locOf` models `get_attrib_location`.  A component
count of 16 (a 4x4 matrix) is split into 4 slots of 4 floats on consecutive
locations; a count `<= 4` is one slot; any other count panics
(`Unsupported vertex data size`), modelled as `none`. -/
def setup_vertex_attribs_aux (locOf : String → Nat) (strideV : Int) (instanced : Bool) :
    Int → Attributes → Option (List GlCall)
  | _, [] => some []
  | offset, (attr, size) :: rest =>
    let loc := locOf attr
    if size = 16 then
      (setup_vertex_attribs_aux locOf strideV instanced (offset + size) rest).map
        (fun restCalls =>
          setup_vertex_attrib loc 4 strideV offset instanced ++
          setup_vertex_attrib (loc + 1) 4 strideV (offset + 4) instanced ++
          setup_vertex_attrib (loc + 2) 4 strideV (offset + 8) instanced ++
          setup_vertex_attrib (loc + 3) 4 strideV (offset + 12) instanced ++ restCalls)
    else if size ≤ 4 then
      (setup_vertex_attribs_aux locOf strideV instanced (offset + size) rest).map
        (fun restCalls => setup_vertex_attrib loc size strideV offset instanced ++ restCalls)
    else none

/-- `setup_vertex_attribs` from `mesh.rs`: iterates over `D::ATTRIBUTES` with
`stride = D::stride()` and a float offset starting at 0. -/
def setup_vertex_attribs (locOf : String → Nat) (attrs : Attributes) (instanced : Bool) :
    Option (List GlCall) :=
  setup_vertex_attribs_aux locOf (stride attrs) instanced 0 attrs

/-- One emitted attribute slot, as read back from a `vertexAttribPointer`
device call. -/
structure VaSlot where
  loc : Nat
  size : Int
  strideBytes : Int
  offsetBytes : Int
deriving DecidableEq, Repr

/-- The attribute slots emitted in a device-call trace. -/
def slotsOf (calls : List GlCall) : List VaSlot :=
  calls.filterMap fun c =>
    match c with
    | .vertexAttribPointer loc size st off => some ⟨loc, size, st, off⟩
    | _ => none

/-- The per-instance divisor assignments in a device-call trace. -/
def divisorsOf (calls : List GlCall) : List (Nat × Nat) :=
  calls.filterMap fun c =>
    match c with
    | .vertexAttribDivisor loc d => some (loc, d)
    | _ => none

/-- Transcription of the layout the specification claims (spec section 4.3 /
claim C2), to be compared with what `setup_vertex_attribs` actually emits:
a count of 16 yields 4 slots of size 4 at float offsets
`off, off+4, off+8, off+12` on locations `loc, loc+1, loc+2, loc+3`; any
other count yields one slot of that size at the current offset; every slot
carries byte stride `stride * 4`. -/
def claimedSlots (locOf : String → Nat) (strideV : Int) : Int → Attributes → List VaSlot
  | _, [] => []
  | off, (a, s) :: rest =>
    (if s = 16 then
      [⟨locOf a, 4, strideV * 4, off * 4⟩,
       ⟨locOf a + 1, 4, strideV * 4, (off + 4) * 4⟩,
       ⟨locOf a + 2, 4, strideV * 4, (off + 8) * 4⟩,
       ⟨locOf a + 3, 4, strideV * 4, (off + 12) * 4⟩]
     else [⟨locOf a, s, strideV * 4, off * 4⟩]) ++
    claimedSlots locOf strideV (off + s) rest

/-- `MeshBuilder` from `mesh.rs`.  The `f32` component values pushed by
`add_to_mesh` are modelled as values of an arbitrary type `α`; `next_index`
is a `u16` and `indices` holds `u16` values, modelled as `Nat`. -/
structure MeshBuilder (α : Type) where
  vertex_data : List α
  indices : List Nat
  next_index : Nat
deriving DecidableEq, Repr

/-- `MeshBuilder::new`. -/
def MeshBuilder.new {α : Type} : MeshBuilder α :=
  ⟨[], [], 0⟩

/-- `MeshBuilder::vert`: `assert!(next_index < u16::max_value())` (modelled
as `none` on failure), then appends the vertex's component values (the list
its `add_to_mesh` pushes) and returns the assigned index. -/
def MeshBuilder.vert {α : Type} (b : MeshBuilder α) (v : List α) :
    Option (Nat × MeshBuilder α) :=
  if b.next_index < 65535 then
    some (b.next_index,
          { vertex_data := b.vertex_data ++ v
            indices := b.indices
            next_index := b.next_index + 1 })
  else none

/-- `MeshBuilder::verts`: `vert` on each vertex in order, collecting the
assigned indices. -/
def MeshBuilder.verts {α : Type} (b : MeshBuilder α) :
    List (List α) → Option (List Nat × MeshBuilder α)
  | [] => some ([], b)
  | v :: vs =>
    match b.vert v with
    | none => none
    | some (i, b') =>
      match b'.verts vs with
      | none => none
      | some (is, b'') => some (i :: is, b'')

/-- `MeshBuilder::clear`. -/
def MeshBuilder.clear {α : Type} (_b : MeshBuilder α) : MeshBuilder α :=
  ⟨[], [], 0⟩

/-- `MeshBuilder::extend`.  `num_verts` is
`(other.vertex_data.len() / V::stride()) as u16`; the two `assert_eq!` checks
and the failure cases (division by a zero stride, and a `u16` addition
overflowing on `next_index += num_verts` or on an index shift
`x + start_index`) are modelled as `none`. -/
def MeshBuilder.extend {α : Type} (strideV : Nat) (b other : MeshBuilder α) :
    Option (MeshBuilder α) :=
  if strideV = 0 then none
  else
    let start_index := b.next_index
    let num_verts := (other.vertex_data.length / strideV) % 65536
    if num_verts * strideV = other.vertex_data.length ∧ num_verts = other.next_index then
      if b.next_index + num_verts < 65536 ∧
          other.indices.all (fun x => x + start_index < 65536) then
        some { vertex_data := b.vertex_data ++ other.vertex_data
               indices := b.indices ++ other.indices.map (fun x => x + start_index)
               next_index := b.next_index + num_verts }
      else none
    else none

/-- `Mesh` from `mesh.rs`, reduced to its native handles, its shared program,
its index count (`i32`, always a list length here) and its draw mode.
`prim` is `P::AS_GL`, the device primitive constant. -/
structure Mesh where
  vao : Nat
  vbo : Nat
  ibo : Nat
  program : GlProgram
  num_indices : Nat
  draw_mode : DrawMode
  prim : Nat
deriving DecidableEq, Repr

/-- `Mesh::bind`: binds the vertex array and the vertex buffer directly,
without consulting the cache (there is no cached vertex-array slot). -/
def Mesh.bind (m : Mesh) : List GlCall :=
  [.bindVertexArray m.vao, .bindBuffer ARRAY_BUFFER m.vbo]

/-- `Mesh::draw`: returns immediately when `num_indices == 0`; otherwise
binds the mesh, binds the program (cache-elided), pushes the uniforms,
binds the surface (cache-elided), sets the draw mode (cache-elided) and
issues the draw call. -/
def Mesh.draw (m : Mesh) (surface : Surf) (c : GlContextCache) :
    GlContextCache × List GlCall :=
  if m.num_indices = 0 then (c, [])
  else
    let t0 := m.bind
    let r1 := m.program.bind c
    let t2 := [GlCall.updateUniforms]
    let r3 := surface.bind r1.1
    let r4 := m.draw_mode.bind r3.1
    (r4.1, t0 ++ r1.2 ++ t2 ++ r3.2 ++ r4.2 ++ [.drawElements m.prim m.num_indices])

/-- `Mesh::draw_instanced`: returns immediately when the mesh is empty or
`instances` is empty; otherwise the same preamble as `draw`, then the
instance attribute setup (which can panic, hence `Option`), the streamed
re-upload of the instance buffer, and the instanced draw call.
`instAttrs` is `I::ATTRIBUTES` and `numInstances` is `instances.len()`. -/
def Mesh.draw_instanced (m : Mesh) (surface : Surf) (locOf : String → Nat)
    (instAttrs : Attributes) (numInstances : Nat) (c : GlContextCache) :
    Option (GlContextCache × List GlCall) :=
  if m.num_indices = 0 ∨ numInstances = 0 then some (c, [])
  else
    let t0 := m.bind
    let r1 := m.program.bind c
    let t2 := [GlCall.updateUniforms]
    let r3 := surface.bind r1.1
    let r4 := m.draw_mode.bind r3.1
    (setup_vertex_attribs locOf instAttrs true).map fun setupCalls =>
      (r4.1, t0 ++ r1.2 ++ t2 ++ r3.2 ++ r4.2 ++ setupCalls ++
             [.bufferData ARRAY_BUFFER (numInstances * (stride instAttrs).toNat),
              .drawElementsInstanced m.prim m.num_indices numInstances])

/-- Recognizes a device draw-target framebuffer bind call. -/
def isDrawFbBind : GlCall → Bool
  | .bindFramebuffer .draw _ => true
  | _ => false

/-- Recognizes a device viewport call. -/
def isViewport : GlCall → Bool
  | .viewport _ _ _ _ => true
  | _ => false

/-- Recognizes a device `use_program` call. -/
def isUseProgram : GlCall → Bool
  | .useProgram _ => true
  | _ => false

/-- Recognizes a device vertex-array bind call. -/
def isVaoBind : GlCall → Bool
  | .bindVertexArray _ => true
  | _ => false

/-- Recognizes a device texture bind call. -/
def isTexBind : GlCall → Bool
  | .bindTexture _ _ => true
  | _ => false

/-- Recognizes the uniform-upload marker. -/
def isUniformUpdate : GlCall → Bool
  | .updateUniforms => true
  | _ => false

/-- The number of distinct consecutive identities in a sequence (runs of a
repeated identity collapse to one). -/
def runsCount {β : Type} [DecidableEq β] : List β → Nat
  | [] => 0
  | [_] => 1
  | a :: b :: rest => (if a = b then 0 else 1) + runsCount (b :: rest)

/-- The number of identity changes in a sequence, starting from an optional
currently-cached identity. -/
def runsFrom {β : Type} [DecidableEq β] (cur : Option β) : List β → Nat
  | [] => 0
  | a :: rest => (if cur = some a then 0 else 1) + runsFrom (some a) rest

/-- `runsFrom` variant for the texture-unit slot, whose cached identity is a
`(target, TextureId)` pair. -/
def runsFromTex (cur : Option (Nat × Nat)) : List Texture2d → Nat
  | [] => 0
  | t :: rest =>
    (if cur = some (TEXTURE_2D, t.id) then 0 else 1) +
      runsFromTex (some (TEXTURE_2D, t.id)) rest

/-- Folds a sequence of `Surface::bind` calls, concatenating the traces. -/
def bindSurfs (c : GlContextCache) : List Surf → GlContextCache × List GlCall
  | [] => (c, [])
  | s :: rest =>
    let r1 := s.bind c
    let r2 := bindSurfs r1.1 rest
    (r2.1, r1.2 ++ r2.2)

/-- Folds a sequence of `GlProgram::bind` calls, concatenating the traces. -/
def bindPrograms (c : GlContextCache) : List GlProgram → GlContextCache × List GlCall
  | [] => (c, [])
  | p :: rest =>
    let r1 := p.bind c
    let r2 := bindPrograms r1.1 rest
    (r2.1, r1.2 ++ r2.2)

/-- Folds a sequence of `Texture2d::bind` calls on one texture unit,
concatenating the traces. -/
def bindTexs (unit : Nat) (c : GlContextCache) :
    List Texture2d → GlContextCache × List GlCall
  | [] => (c, [])
  | t :: rest =>
    let r1 := t.bind unit c
    let r2 := bindTexs unit r1.1 rest
    (r2.1, r1.2 ++ r2.2)

theorem runsFrom_none_eq_runsCount {β : Type} [DecidableEq β] (l : List β) :
    runsFrom (none : Option β) l = runsCount l := by
  have key : ∀ (t : List β) (a : β), 1 + runsFrom (some a) t = runsCount (a :: t) := by
    intro t
    induction t with
    | nil => intro a; simp [runsFrom, runsCount]
    | cons b t ih =>
      intro a
      simp only [runsFrom, runsCount, ← ih b, Option.some.injEq]
      omega
  cases l with
  | nil => simp [runsFrom, runsCount]
  | cons a t => simpa [runsFrom] using key t a

theorem getD_set_self {β : Type} (l : List (Option β)) (i : Nat) (v : Option β)
    (h : i < l.length) : (l.set i v).getD i none = v := by
  induction l generalizing i with
  | nil => simp at h
  | cons a t ih =>
    cases i with
    | zero => simp [List.set, List.getD]
    | succ j =>
      simp only [List.set, List.getD_cons_succ]
      exact ih j (by simpa using h)

theorem getD_replicate_none {β : Type} (n i : Nat) :
    (List.replicate n (none : Option β)).getD i none = none := by
  induction n generalizing i with
  | zero => simp [List.getD]
  | succ m ih =>
    cases i with
    | zero => simp [List.replicate, List.getD]
    | succ j => simp [List.replicate, List.getD_cons_succ, ih j]

theorem surf_bind_step (s : Surf) (c : GlContextCache) :
    (s.bind c).1.bound_framebuffer = some s.id ∧
    (s.bind c).2.countP isDrawFbBind =
      (if c.bound_framebuffer = some s.id then 0 else 1) ∧
    (s.bind c).2.countP isViewport =
      (if c.bound_framebuffer = some s.id then 0 else 1) := by
  cases s with
  | screen s =>
    simp only [Surf.bind, Surf.id, ScreenSurface.bind]
    split <;> simp_all [List.countP, List.countP.go, isDrawFbBind, isViewport, contextViewport]
  | offscreen f =>
    simp only [Surf.bind, Surf.id, Framebuffer.bind]
    split <;> simp_all [List.countP, List.countP.go, isDrawFbBind, isViewport, contextViewport]

theorem program_bind_step (p : GlProgram) (c : GlContextCache) :
    (p.bind c).1.bound_program = some p.id ∧
    (p.bind c).2.countP isUseProgram =
      (if c.bound_program = some p.id then 0 else 1) := by
  simp only [GlProgram.bind]
  split <;> simp_all [List.countP, List.countP.go, isUseProgram]

theorem tex_bind_step (t : Texture2d) (u : Nat) (c : GlContextCache)
    (hu : u < c.bound_textures.length) :
    (t.bind u c).1.bound_textures.getD u none = some (TEXTURE_2D, t.id) ∧
    (t.bind u c).1.bound_textures.length = c.bound_textures.length ∧
    (t.bind u c).2.countP isTexBind =
      (if c.bound_textures.getD u none = some (TEXTURE_2D, t.id) then 0 else 1) := by
  simp only [Texture2d.bind]
  split <;>
    simp_all [List.countP, List.countP.go, isTexBind, getD_set_self, List.length_set]

theorem bindSurfs_countP (l : List Surf) :
    ∀ c : GlContextCache,
      (bindSurfs c l).2.countP isDrawFbBind = runsFrom c.bound_framebuffer (l.map Surf.id) := by
  induction l with
  | nil => intro c; simp [bindSurfs, runsFrom]
  | cons s rest ih =>
    intro c
    obtain ⟨h1, h2, -⟩ := surf_bind_step s c
    simp only [bindSurfs, List.map_cons, runsFrom, List.countP_append, h2, ih (s.bind c).1, h1]

theorem bindPrograms_countP (l : List GlProgram) :
    ∀ c : GlContextCache,
      (bindPrograms c l).2.countP isUseProgram =
        runsFrom c.bound_program (l.map GlProgram.id) := by
  induction l with
  | nil => intro c; simp [bindPrograms, runsFrom]
  | cons p rest ih =>
    intro c
    obtain ⟨h1, h2⟩ := program_bind_step p c
    simp only [bindPrograms, List.map_cons, runsFrom, List.countP_append, h2,
      ih (p.bind c).1, h1]

theorem bindTexs_countP (l : List Texture2d) (u : Nat) :
    ∀ c : GlContextCache, u < c.bound_textures.length →
      (bindTexs u c l).2.countP isTexBind = runsFromTex (c.bound_textures.getD u none) l := by
  induction l with
  | nil => intro c _; simp [bindTexs, runsFromTex]
  | cons t rest ih =>
    intro c hu
    obtain ⟨h1, hlen, h3⟩ := tex_bind_step t u c hu
    have hu' : u < (t.bind u c).1.bound_textures.length := by rw [hlen]; exact hu
    simp only [bindTexs, runsFromTex, List.countP_append, h3, ih (t.bind u c).1 hu', h1]

theorem runsFromTex_none (l : List Texture2d) :
    runsFromTex none l = runsCount (l.map Texture2d.id) := by
  have key : ∀ (l : List Texture2d) (cur : Option Nat),
      runsFromTex (cur.map fun i => (TEXTURE_2D, i)) l = runsFrom cur (l.map Texture2d.id) := by
    intro l
    induction l with
    | nil => intro cur; simp [runsFromTex, runsFrom]
    | cons t rest ih =>
      intro cur
      have htail : runsFromTex (some (TEXTURE_2D, t.id)) rest =
          runsFrom (some t.id) (rest.map Texture2d.id) := ih (some t.id)
      cases cur with
      | none => simp [runsFromTex, runsFrom, htail]
      | some x => simp [runsFromTex, runsFrom, htail, Prod.ext_iff]
  have h0 := key l none
  simp only [Option.map_none'] at h0
  rw [h0, runsFrom_none_eq_runsCount]

/-- C1: for each tracked slot (draw-framebuffer target, program, texture
unit), a single bind skips the device call exactly when the cached identity
already equals the requested identity and always leaves the cache at the
requested identity; and over any sequence of binds starting from a fresh
cache, the number of device bind calls issued equals the number of distinct
consecutive identities in the sequence (the screen target's `FramebufferId`
being an identity like any other). -/
theorem C1_bind_cache_elision :
    (∀ (s : Surf) (c : GlContextCache),
       (s.bind c).1.bound_framebuffer = some s.id ∧
       (s.bind c).2.countP isDrawFbBind =
         (if c.bound_framebuffer = some s.id then 0 else 1)) ∧
    (∀ (p : GlProgram) (c : GlContextCache),
       (p.bind c).1.bound_program = some p.id ∧
       (p.bind c).2.countP isUseProgram =
         (if c.bound_program = some p.id then 0 else 1)) ∧
    (∀ (t : Texture2d) (u : Nat) (c : GlContextCache), u < c.bound_textures.length →
       (t.bind u c).1.bound_textures.getD u none = some (TEXTURE_2D, t.id) ∧
       (t.bind u c).2.countP isTexBind =
         (if c.bound_textures.getD u none = some (TEXTURE_2D, t.id) then 0 else 1)) ∧
    (∀ l : List Surf,
       (bindSurfs GlContextCache.new l).2.countP isDrawFbBind = runsCount (l.map Surf.id)) ∧
    (∀ l : List GlProgram,
       (bindPrograms GlContextCache.new l).2.countP isUseProgram =
         runsCount (l.map GlProgram.id)) ∧
    (∀ (u : Nat) (l : List Texture2d), u < 32 →
       (bindTexs u GlContextCache.new l).2.countP isTexBind =
         runsCount (l.map Texture2d.id)) := by
  refine ⟨?_, ?_, ?_, ?_, ?_, ?_⟩
  · intro s c
    obtain ⟨h1, h2, -⟩ := surf_bind_step s c
    exact ⟨h1, h2⟩
  · exact program_bind_step
  · intro t u c hu
    obtain ⟨h1, -, h3⟩ := tex_bind_step t u c hu
    exact ⟨h1, h3⟩
  · intro l
    rw [bindSurfs_countP l GlContextCache.new]
    simp [GlContextCache.new, runsFrom_none_eq_runsCount]
  · intro l
    rw [bindPrograms_countP l GlContextCache.new]
    simp [GlContextCache.new, runsFrom_none_eq_runsCount]
  · intro u l hu
    rw [bindTexs_countP l u GlContextCache.new (by simp [GlContextCache.new, hu])]
    have hg : GlContextCache.new.bound_textures.getD u none = none := getD_replicate_none 32 u
    rw [hg, runsFromTex_none]

/-- Witness for C1 at a texture unit and a concrete bind sequence. -/
theorem C1_bind_cache_elision_witness :
    (0 : Nat) < 32 ∧
    (bindTexs 0 GlContextCache.new [⟨7, 3⟩, ⟨7, 3⟩, ⟨8, 4⟩]).2.countP isTexBind =
      runsCount (([⟨7, 3⟩, ⟨7, 3⟩, ⟨8, 4⟩] : List Texture2d).map Texture2d.id) :=
  ⟨by decide,
   C1_bind_cache_elision.2.2.2.2.2 0 [⟨7, 3⟩, ⟨7, 3⟩, ⟨8, 4⟩] (by decide)⟩

theorem surf_bind_already (s : Surf) (c : GlContextCache)
    (h : c.bound_framebuffer = some s.id) : s.bind c = (c, []) := by
  cases s <;> simp_all [Surf.bind, Surf.id, ScreenSurface.bind, Framebuffer.bind]

theorem surf_bind_read_no_viewport (s : Surf) (c : GlContextCache) :
    (s.bind_read c).2.countP isViewport = 0 := by
  cases s with
  | screen s =>
    simp only [Surf.bind_read, ScreenSurface.bind_read]
    split <;> simp [List.countP, List.countP.go, isViewport]
  | offscreen f =>
    simp only [Surf.bind_read, Framebuffer.bind_read]
    split <;> simp [List.countP, List.countP.go, isViewport]

/-- C8: a surface bind issues a viewport update exactly when the draw-target
identity changes and a draw-target bind call in the same cases; `bind_read`
never issues a viewport update; and the scenario bind A, bind A, bind B
yields exactly 2 draw-target bind calls and exactly 2 viewport updates, on
the first and third bind, with the second bind issuing nothing. -/
theorem C8_surface_viewport_discipline :
    (∀ (s : Surf) (c : GlContextCache),
       (s.bind c).2.countP isViewport =
         (if c.bound_framebuffer = some s.id then 0 else 1)) ∧
    (∀ (s : Surf) (c : GlContextCache), (s.bind_read c).2.countP isViewport = 0) ∧
    (∀ (A B : Surf) (c : GlContextCache),
       c.bound_framebuffer ≠ some A.id → A.id ≠ B.id →
       ((A.bind c).2 ++ (A.bind (A.bind c).1).2 ++
           (B.bind (A.bind (A.bind c).1).1).2).countP isDrawFbBind = 2 ∧
       ((A.bind c).2 ++ (A.bind (A.bind c).1).2 ++
           (B.bind (A.bind (A.bind c).1).1).2).countP isViewport = 2 ∧
       (A.bind c).2.countP isViewport = 1 ∧
       (A.bind (A.bind c).1).2 = [] ∧
       (B.bind (A.bind (A.bind c).1).1).2.countP isViewport = 1) := by
  refine ⟨?_, surf_bind_read_no_viewport, ?_⟩
  · intro s c
    obtain ⟨-, -, h3⟩ := surf_bind_step s c
    exact h3
  · intro A B c hA hAB
    obtain ⟨a1, a2, a3⟩ := surf_bind_step A c
    rw [if_neg hA] at a2 a3
    have h2 : A.bind (A.bind c).1 = ((A.bind c).1, []) := surf_bind_already A (A.bind c).1 a1
    have hne : (A.bind c).1.bound_framebuffer ≠ some B.id := by rw [a1]; simp [hAB]
    obtain ⟨b1, b2, b3⟩ := surf_bind_step B (A.bind c).1
    rw [if_neg hne] at b2 b3
    refine ⟨?_, ?_, a3, by rw [h2], ?_⟩
    · simp [h2, List.countP_append, a2, b2]
    · simp [h2, List.countP_append, a3, b3]
    · simp [h2, b3]

/-- Witness for C8 at concrete surfaces and the fresh cache. -/
theorem C8_surface_viewport_discipline_witness :
    (GlContextCache.new.bound_framebuffer ≠
        some (Surf.screen ⟨⟨0, 0, 4, 4⟩, (4, 4), 4, 4, 1⟩).id) ∧
    (Surf.screen ⟨⟨0, 0, 4, 4⟩, (4, 4), 4, 4, 1⟩).id ≠
        (Surf.offscreen ⟨9, (8, 8), ⟨0, 0, 8, 8⟩, 2⟩).id ∧
    (((Surf.screen ⟨⟨0, 0, 4, 4⟩, (4, 4), 4, 4, 1⟩).bind GlContextCache.new).2 ++
        ((Surf.screen ⟨⟨0, 0, 4, 4⟩, (4, 4), 4, 4, 1⟩).bind
          ((Surf.screen ⟨⟨0, 0, 4, 4⟩, (4, 4), 4, 4, 1⟩).bind GlContextCache.new).1).2 ++
        ((Surf.offscreen ⟨9, (8, 8), ⟨0, 0, 8, 8⟩, 2⟩).bind
          ((Surf.screen ⟨⟨0, 0, 4, 4⟩, (4, 4), 4, 4, 1⟩).bind
            ((Surf.screen ⟨⟨0, 0, 4, 4⟩, (4, 4), 4, 4, 1⟩).bind
              GlContextCache.new).1).1).2).countP isDrawFbBind = 2 :=
  ⟨by decide, by decide,
   (C8_surface_viewport_discipline.2.2 (Surf.screen ⟨⟨0, 0, 4, 4⟩, (4, 4), 4, 4, 1⟩)
     (Surf.offscreen ⟨9, (8, 8), ⟨0, 0, 8, 8⟩, 2⟩) GlContextCache.new
     (by decide) (by decide)).1⟩

theorem toI32_of_lt (n : Nat) (h : n < 2147483648) : toI32 n = (n : Int) := by
  have h32 : n % 4294967296 = n := Nat.mod_eq_of_lt (by omega)
  simp [toI32, h32, h]

/-- C9: `set_size` immediately updates the stored size and viewport
rectangle; it re-applies the device viewport in the same call exactly when
the screen surface is the currently bound draw target, and issues no device
call otherwise. -/
theorem C9_set_size_viewport (s : ScreenSurface) (c : GlContextCache) (S : Nat × Nat)
    (hx : S.1 < 2147483648) (hy : S.2 < 2147483648) :
    (s.set_size c S).1.size = S ∧
    (s.set_size c S).1.viewport = ⟨0, 0, (S.1 : Int), (S.2 : Int)⟩ ∧
    (c.bound_framebuffer = some s.id →
      (s.set_size c S).2 = [.viewport 0 0 (S.1 : Int) (S.2 : Int)]) ∧
    (c.bound_framebuffer ≠ some s.id → (s.set_size c S).2 = []) := by
  refine ⟨by simp [ScreenSurface.set_size], ?_, ?_, ?_⟩
  · simp [ScreenSurface.set_size, toI32_of_lt S.1 hx, toI32_of_lt S.2 hy]
  · intro h
    simp [ScreenSurface.set_size, h, contextViewport, toI32_of_lt S.1 hx, toI32_of_lt S.2 hy]
  · intro h
    simp [ScreenSurface.set_size, h]

/-- Witness for C9 at a concrete surface, cache and size. -/
theorem C9_set_size_viewport_witness :
    (3 : Nat) < 2147483648 ∧ (5 : Nat) < 2147483648 ∧
    ((⟨⟨0, 0, 1, 1⟩, (1, 1), 1, 1, 6⟩ : ScreenSurface).set_size
        { GlContextCache.new with bound_framebuffer := some 6 } (3, 5)).1.size = (3, 5) :=
  ⟨by decide, by decide,
   (C9_set_size_viewport ⟨⟨0, 0, 1, 1⟩, (1, 1), 1, 1, 6⟩
     { GlContextCache.new with bound_framebuffer := some 6 } (3, 5)
     (by decide) (by decide)).1⟩

theorem slotsOf_append (l1 l2 : List GlCall) :
    slotsOf (l1 ++ l2) = slotsOf l1 ++ slotsOf l2 := by
  simp [slotsOf, List.filterMap_append]

theorem divisorsOf_append (l1 l2 : List GlCall) :
    divisorsOf (l1 ++ l2) = divisorsOf l1 ++ divisorsOf l2 := by
  simp [divisorsOf, List.filterMap_append]

theorem slotsOf_sva (loc : Nat) (size strideV offset : Int) (instanced : Bool) :
    slotsOf (setup_vertex_attrib loc size strideV offset instanced) =
      [⟨loc, size, strideV * 4, offset * 4⟩] := by
  cases instanced <;> simp [setup_vertex_attrib, slotsOf, List.filterMap_cons]

theorem divisorsOf_sva (loc : Nat) (size strideV offset : Int) (instanced : Bool) :
    divisorsOf (setup_vertex_attrib loc size strideV offset instanced) =
      (if instanced then [(loc, 1)] else []) := by
  cases instanced <;> simp [setup_vertex_attrib, divisorsOf, List.filterMap_cons]

theorem setup_aux_small (locOf : String → Nat) (strideV : Int) (instanced : Bool)
    (a : String) (s off : Int) (rest : Attributes) (restCalls : List GlCall)
    (hs16 : ¬s = 16) (hs4 : s ≤ 4)
    (hEq : setup_vertex_attribs_aux locOf strideV instanced (off + s) rest = some restCalls) :
    setup_vertex_attribs_aux locOf strideV instanced off ((a, s) :: rest) =
      some (setup_vertex_attrib (locOf a) s strideV off instanced ++ restCalls) := by
  simp [setup_vertex_attribs_aux, hs16, hs4, hEq]

theorem setup_aux_sixteen (locOf : String → Nat) (strideV : Int) (instanced : Bool)
    (a : String) (off : Int) (rest : Attributes) (restCalls : List GlCall)
    (hEq : setup_vertex_attribs_aux locOf strideV instanced (off + 16) rest = some restCalls) :
    setup_vertex_attribs_aux locOf strideV instanced off ((a, 16) :: rest) =
      some (setup_vertex_attrib (locOf a) 4 strideV off instanced ++
            setup_vertex_attrib (locOf a + 1) 4 strideV (off + 4) instanced ++
            setup_vertex_attrib (locOf a + 2) 4 strideV (off + 8) instanced ++
            setup_vertex_attrib (locOf a + 3) 4 strideV (off + 12) instanced ++ restCalls) := by
  simp [setup_vertex_attribs_aux, hEq]

theorem setup_aux_spec (locOf : String → Nat) (strideV : Int) (instanced : Bool) :
    ∀ (attrs : Attributes) (off : Int),
      (∀ p ∈ attrs, p.2 = 1 ∨ p.2 = 2 ∨ p.2 = 3 ∨ p.2 = 4 ∨ p.2 = 16) →
      ∃ calls, setup_vertex_attribs_aux locOf strideV instanced off attrs = some calls ∧
        slotsOf calls = claimedSlots locOf strideV off attrs ∧
        divisorsOf calls =
          (if instanced then
            (claimedSlots locOf strideV off attrs).map (fun sl => (sl.loc, 1)) else []) := by
  intro attrs
  induction attrs with
  | nil =>
    intro off _
    exact ⟨[], rfl, by simp [slotsOf, divisorsOf, claimedSlots]⟩
  | cons hd rest ih =>
    intro off h
    obtain ⟨a, s⟩ := hd
    have hs := h (a, s) (List.mem_cons_self _ _)
    obtain ⟨restCalls, hEq, hSlots, hDivs⟩ :=
      ih (off + s) (fun p hp => h p (List.mem_cons_of_mem _ hp))
    by_cases h16 : s = 16
    · subst h16
      refine ⟨_, setup_aux_sixteen locOf strideV instanced a off rest restCalls hEq, ?_, ?_⟩
      · simp only [slotsOf_append, slotsOf_sva, hSlots, claimedSlots, if_pos rfl]
        simp
      · cases instanced with
        | false =>
          simp only [Bool.false_eq_true, if_false] at hDivs ⊢
          simp [divisorsOf_append, divisorsOf_sva, hDivs]
        | true =>
          simp only [if_pos rfl] at hDivs ⊢
          simp [divisorsOf_append, divisorsOf_sva, hDivs, claimedSlots]
    · have hs4 : s ≤ 4 := by rcases hs with rfl | rfl | rfl | rfl | rfl <;> omega
      refine ⟨_, setup_aux_small locOf strideV instanced a s off rest restCalls h16 hs4 hEq, ?_, ?_⟩
      · simp only [slotsOf_append, slotsOf_sva, hSlots, claimedSlots, if_neg h16]
      · cases instanced with
        | false =>
          simp only [Bool.false_eq_true, if_false] at hDivs ⊢
          simp [divisorsOf_append, divisorsOf_sva, hDivs]
        | true =>
          simp only [if_pos rfl] at hDivs ⊢
          simp [divisorsOf_append, divisorsOf_sva, hDivs, claimedSlots, if_neg h16]

theorem claimedSlots_strideBytes (locOf : String → Nat) (strideV : Int) :
    ∀ (attrs : Attributes) (off : Int) (sl : VaSlot),
      sl ∈ claimedSlots locOf strideV off attrs → sl.strideBytes = strideV * 4 := by
  intro attrs
  induction attrs with
  | nil => intro off sl hsl; simp [claimedSlots] at hsl
  | cons hd rest ih =>
    intro off sl hsl
    obtain ⟨a, s⟩ := hd
    simp only [claimedSlots, List.mem_append] at hsl
    rcases hsl with hsl | hsl
    · by_cases h16 : s = 16
      · subst h16
        simp only [if_pos rfl] at hsl
        fin_cases hsl <;> rfl
      · simp only [if_neg h16, List.mem_singleton] at hsl
        subst hsl
        rfl
    · exact ih (off + s) sl hsl

theorem claimedSlots_length (locOf : String → Nat) (strideV : Int) :
    ∀ (attrs : Attributes) (off : Int),
      (∀ p ∈ attrs, p.2 = 1 ∨ p.2 = 2 ∨ p.2 = 3 ∨ p.2 = 4 ∨ p.2 = 16) →
      (claimedSlots locOf strideV off attrs).length =
        attrs.countP (fun p => decide (p.2 ≤ 4)) +
          4 * attrs.countP (fun p => decide (p.2 = 16)) := by
  intro attrs
  induction attrs with
  | nil => intro off _; simp [claimedSlots]
  | cons hd rest ih =>
    intro off h
    obtain ⟨a, s⟩ := hd
    have hs := h (a, s) (List.mem_cons_self _ _)
    have htail := ih (off + s) (fun p hp => h p (List.mem_cons_of_mem _ hp))
    by_cases h16 : s = 16
    · subst h16
      simp only [claimedSlots, if_pos rfl, List.length_append, htail, List.countP_cons]
      norm_num
      omega
    · have hs4 : s ≤ 4 := by rcases hs with rfl | rfl | rfl | rfl | rfl <;> omega
      simp only [claimedSlots, if_neg h16, List.length_append, htail, List.countP_cons]
      simp [hs4, h16]
      omega

/-- C2: on a schema whose component counts all lie in [1,2,3,4,16],
`setup_vertex_attribs` succeeds; the slots it emits are exactly the claimed
layout (each count of 16 becoming 4 slots of size 4 at float offsets
`off, off+4, off+8, off+12` on locations `loc, loc+1, loc+2, loc+3`, each
other count one slot at the current offset); every emitted slot carries byte
stride `4 * (sum of component counts)`; the number of slots is
(count of sizes <= 4) + 4 * (count of sizes == 16); and when `instanced`,
every emitted slot gets a per-instance divisor of 1. -/
theorem C2_vertex_layout (locOf : String → Nat) (attrs : Attributes) (instanced : Bool)
    (h : ∀ p ∈ attrs, p.2 = 1 ∨ p.2 = 2 ∨ p.2 = 3 ∨ p.2 = 4 ∨ p.2 = 16) :
    ∃ calls, setup_vertex_attribs locOf attrs instanced = some calls ∧
      slotsOf calls = claimedSlots locOf (stride attrs) 0 attrs ∧
      (∀ sl ∈ slotsOf calls, sl.strideBytes = stride attrs * 4) ∧
      (slotsOf calls).length =
        attrs.countP (fun p => decide (p.2 ≤ 4)) +
          4 * attrs.countP (fun p => decide (p.2 = 16)) ∧
      divisorsOf calls =
        (if instanced then (slotsOf calls).map (fun sl => (sl.loc, 1)) else []) := by
  obtain ⟨calls, hEq, hSlots, hDivs⟩ := setup_aux_spec locOf (stride attrs) instanced attrs 0 h
  refine ⟨calls, hEq, hSlots, ?_, ?_, ?_⟩
  · intro sl hsl
    rw [hSlots] at hsl
    exact claimedSlots_strideBytes locOf (stride attrs) attrs 0 sl hsl
  · rw [hSlots]
    exact claimedSlots_length locOf (stride attrs) attrs 0 h
  · rw [hSlots]
    exact hDivs

/-- Witness for C2 at a concrete schema with a 2-float attribute and a
4x4-matrix attribute. -/
theorem C2_vertex_layout_witness :
    (∀ p ∈ ([("pos", 2), ("model", 16)] : Attributes),
       p.2 = 1 ∨ p.2 = 2 ∨ p.2 = 3 ∨ p.2 = 4 ∨ p.2 = 16) ∧
    ∃ calls,
      setup_vertex_attribs (fun _ => 5) [("pos", 2), ("model", 16)] true = some calls ∧
      slotsOf calls =
        claimedSlots (fun _ => 5) (stride [("pos", 2), ("model", 16)]) 0
          [("pos", 2), ("model", 16)] ∧
      (∀ sl ∈ slotsOf calls, sl.strideBytes = stride [("pos", 2), ("model", 16)] * 4) ∧
      (slotsOf calls).length =
        ([("pos", 2), ("model", 16)] : Attributes).countP (fun p => decide (p.2 ≤ 4)) +
          4 * ([("pos", 2), ("model", 16)] : Attributes).countP (fun p => decide (p.2 = 16)) ∧
      divisorsOf calls =
        (if true then (slotsOf calls).map (fun sl => (sl.loc, 1)) else []) :=
  ⟨by decide, C2_vertex_layout (fun _ => 5) [("pos", 2), ("model", 16)] true (by decide)⟩

/-- Counterexample to C3 as stated: the component count 0 lies outside
[1,2,3,4,16], yet `setup_vertex_attribs` does not fail — the guard is
`size <= 4`, so it emits one (size 0) attribute slot. -/
theorem C3_counterexample :
    ((0 : Int) ∉ ([1, 2, 3, 4, 16] : List Int)) ∧
    setup_vertex_attribs (fun _ => 0) [("a", 0)] false =
      some [.enableVertexAttribArray 0, .vertexAttribPointer 0 0 0 0] ∧
    (slotsOf ((setup_vertex_attribs (fun _ => 0) [("a", 0)] false).getD [])).length = 1 := by
  refine ⟨by decide, ?_, by decide⟩
  decide

/-- C3 amended: a schema containing a component count greater than 4 and
different from 16 makes `setup_vertex_attribs` fail (panic), emitting
nothing; counts of at most 0 are, however, not rejected (see the
counterexample). -/
theorem C3_unsupported_size (locOf : String → Nat) (attrs : Attributes) (instanced : Bool)
    (h : ∃ p ∈ attrs, 4 < p.2 ∧ p.2 ≠ 16) :
    setup_vertex_attribs locOf attrs instanced = none := by
  have key : ∀ (l : Attributes) (off : Int), (∃ p ∈ l, 4 < p.2 ∧ p.2 ≠ 16) →
      setup_vertex_attribs_aux locOf (stride attrs) instanced off l = none := by
    intro l
    induction l with
    | nil => intro off hbad; simp at hbad
    | cons hd rest ih =>
      intro off hbad
      obtain ⟨a, s⟩ := hd
      by_cases hbadHead : 4 < s ∧ s ≠ 16
      · obtain ⟨hgt, hne⟩ := hbadHead
        have hle : ¬s ≤ 4 := by omega
        simp [setup_vertex_attribs_aux, hne, hle]
      · have hbadTail : ∃ p ∈ rest, 4 < p.2 ∧ p.2 ≠ 16 := by
          rcases hbad with ⟨p, hp, hbadp⟩
          rcases List.mem_cons.mp hp with rfl | hp'
          · exact absurd hbadp hbadHead
          · exact ⟨p, hp', hbadp⟩
        have htail := ih (off + s) hbadTail
        simp [setup_vertex_attribs_aux, htail]
  exact key attrs 0 h

/-- Witness for the amended C3 at a schema containing the count 5. -/
theorem C3_unsupported_size_witness :
    (∃ p ∈ ([("a", 5)] : Attributes), 4 < p.2 ∧ p.2 ≠ 16) ∧
    setup_vertex_attribs (fun _ => 0) [("a", 5)] false = none :=
  ⟨by decide, C3_unsupported_size (fun _ => 0) [("a", 5)] false (by decide)⟩

/-- The invariant of claim C4: the packed vertex data holds exactly
`next_index` records of `stride` values each. -/
def builderInv {α : Type} (strideV : Nat) (b : MeshBuilder α) : Prop :=
  b.vertex_data.length = b.next_index * strideV

theorem vert_inv {α : Type} (strideV : Nat) (b : MeshBuilder α) (v : List α) (i : Nat)
    (b' : MeshBuilder α) (hv : b.vert v = some (i, b')) (hlen : v.length = strideV)
    (hinv : builderInv strideV b) : builderInv strideV b' := by
  unfold MeshBuilder.vert at hv
  split at hv
  · simp only [Option.some.injEq, Prod.mk.injEq] at hv
    obtain ⟨-, rfl⟩ := hv
    simp only [builderInv, List.length_append, hlen, Nat.add_mul, Nat.one_mul]
    rw [hinv]
  · exact absurd hv (by simp)

theorem verts_inv {α : Type} (strideV : Nat) (vs : List (List α)) :
    ∀ (b : MeshBuilder α) (idxs : List Nat) (b' : MeshBuilder α),
      b.verts vs = some (idxs, b') → (∀ v ∈ vs, v.length = strideV) →
      builderInv strideV b → builderInv strideV b' := by
  induction vs with
  | nil =>
    intro b idxs b' h _ hinv
    simp only [MeshBuilder.verts, Option.some.injEq, Prod.mk.injEq] at h
    obtain ⟨-, rfl⟩ := h
    exact hinv
  | cons v vs ih =>
    intro b idxs b' h hlen hinv
    simp only [MeshBuilder.verts] at h
    cases hvert : b.vert v with
    | none => rw [hvert] at h; exact absurd h (by simp)
    | some r =>
      obtain ⟨i, b1⟩ := r
      rw [hvert] at h
      dsimp only at h
      cases hrec : b1.verts vs with
      | none => rw [hrec] at h; exact absurd h (by simp)
      | some r2 =>
        obtain ⟨idxs2, b2⟩ := r2
        rw [hrec] at h
        dsimp only at h
        simp only [Option.some.injEq, Prod.mk.injEq] at h
        obtain ⟨-, rfl⟩ := h
        have hinv1 : builderInv strideV b1 :=
          vert_inv strideV b v i b1 hvert (hlen v (List.mem_cons_self _ _)) hinv
        exact ih b1 idxs2 b2 hrec (fun w hw => hlen w (List.mem_cons_of_mem _ hw)) hinv1

theorem extend_inv {α : Type} (strideV : Nat) (b other b' : MeshBuilder α)
    (h : MeshBuilder.extend strideV b other = some b')
    (hinv : builderInv strideV b) : builderInv strideV b' := by
  simp only [MeshBuilder.extend] at h
  split_ifs at h with h0 h1 h2
  · simp only [Option.some.injEq] at h
    subst h
    simp only [builderInv, List.length_append, Nat.add_mul]
    rw [hinv, h1.1]

/-- C4: `len(vertex_data) == next_index * stride` holds for a fresh builder
and is preserved by every builder operation (`vert`, `verts`, `clear`,
`extend`), assuming each vertex's `add_to_mesh` pushes exactly `stride`
values. -/
theorem C4_builder_invariant (α : Type) (strideV : Nat) :
    builderInv strideV (MeshBuilder.new : MeshBuilder α) ∧
    (∀ (b : MeshBuilder α) (v : List α) (i : Nat) (b' : MeshBuilder α),
       b.vert v = some (i, b') → v.length = strideV →
       builderInv strideV b → builderInv strideV b') ∧
    (∀ (b : MeshBuilder α) (vs : List (List α)) (idxs : List Nat) (b' : MeshBuilder α),
       b.verts vs = some (idxs, b') → (∀ v ∈ vs, v.length = strideV) →
       builderInv strideV b → builderInv strideV b') ∧
    (∀ b : MeshBuilder α, builderInv strideV b.clear) ∧
    (∀ b other b' : MeshBuilder α,
       MeshBuilder.extend strideV b other = some b' →
       builderInv strideV b → builderInv strideV b') := by
  refine ⟨by simp [builderInv, MeshBuilder.new], vert_inv strideV, ?_, ?_, extend_inv strideV⟩
  · intro b vs idxs b' h hlen hinv
    exact verts_inv strideV vs b idxs b' h hlen hinv
  · intro b
    simp [builderInv, MeshBuilder.clear]

/-- Witness for C4: one `vert` of a stride-2 vertex on the fresh builder. -/
theorem C4_builder_invariant_witness :
    (MeshBuilder.new : MeshBuilder Nat).vert [5, 6] = some (0, ⟨[5, 6], [], 1⟩) ∧
    ([5, 6] : List Nat).length = 2 ∧
    builderInv 2 (⟨[5, 6], [], 1⟩ : MeshBuilder Nat) :=
  ⟨by decide, by decide,
   (C4_builder_invariant Nat 2).2.1 MeshBuilder.new [5, 6] 0 ⟨[5, 6], [], 1⟩ (by decide)
     (by decide) (C4_builder_invariant Nat 2).1⟩

theorem verts_spec {α : Type} (vs : List (List α)) :
    ∀ b : MeshBuilder α,
      (b.next_index + vs.length ≤ 65535 →
        ∃ b', b.verts vs = some (List.range' b.next_index vs.length, b') ∧
              b'.next_index = b.next_index + vs.length) ∧
      (b.next_index ≤ 65535 → 65535 < b.next_index + vs.length → b.verts vs = none) := by
  induction vs with
  | nil =>
    intro b
    refine ⟨fun _ => ⟨b, by simp [MeshBuilder.verts, List.range'], rfl⟩, fun h1 h2 => ?_⟩
    exfalso
    simp only [List.length_nil, Nat.add_zero] at h2
    omega
  | cons v vs ih =>
    intro b
    constructor
    · intro hle
      have hlt : b.next_index < 65535 := by simp at hle; omega
      have hvert : b.vert v =
          some (b.next_index, ⟨b.vertex_data ++ v, b.indices, b.next_index + 1⟩) := by
        simp [MeshBuilder.vert, hlt]
      have hle' : (⟨b.vertex_data ++ v, b.indices, b.next_index + 1⟩ :
          MeshBuilder α).next_index + vs.length ≤ 65535 := by simp at hle ⊢; omega
      obtain ⟨b', hb', hni⟩ := (ih ⟨b.vertex_data ++ v, b.indices, b.next_index + 1⟩).1 hle'
      refine ⟨b', ?_, by simp at hni ⊢; omega⟩
      simp only [MeshBuilder.verts, hvert, hb', List.length_cons, List.range'_succ]
    · intro hle hgt
      by_cases hlt : b.next_index < 65535
      · have hvert : b.vert v =
            some (b.next_index, ⟨b.vertex_data ++ v, b.indices, b.next_index + 1⟩) := by
          simp [MeshBuilder.vert, hlt]
        have := (ih ⟨b.vertex_data ++ v, b.indices, b.next_index + 1⟩).2
          (by simp; omega) (by simp at hgt ⊢; omega)
        simp only [MeshBuilder.verts, hvert, this]
      · have hvert : b.vert v = none := by simp [MeshBuilder.vert, hlt]
        simp only [MeshBuilder.verts, hvert]

/-- C5: a builder whose `next_index` has reached 65535 rejects the next
`vert` (the capacity assertion fires on the 65536th call); appending exactly
65535 vertices to a fresh builder succeeds with assigned indices
0 through 65534, while appending 65536 fails. -/
theorem C5_vertex_capacity (α : Type) :
    (∀ (b : MeshBuilder α) (v : List α), b.next_index = 65535 → b.vert v = none) ∧
    (∀ vs : List (List α), vs.length = 65535 →
       ∃ b', (MeshBuilder.new : MeshBuilder α).verts vs = some (List.range 65535, b') ∧
             b'.next_index = 65535) ∧
    (∀ vs : List (List α), vs.length = 65536 →
       (MeshBuilder.new : MeshBuilder α).verts vs = none) := by
  refine ⟨?_, ?_, ?_⟩
  · intro b v h
    simp [MeshBuilder.vert, h]
  · intro vs hlen
    obtain ⟨b', hb', hni⟩ := (verts_spec vs MeshBuilder.new).1 (by simp [MeshBuilder.new, hlen])
    refine ⟨b', ?_, by simpa [MeshBuilder.new, hlen] using hni⟩
    rw [hb']
    simp [MeshBuilder.new, hlen, List.range_eq_range']
  · intro vs hlen
    exact (verts_spec vs MeshBuilder.new).2 (by simp [MeshBuilder.new])
      (by simp [MeshBuilder.new, hlen])

/-- Witness for C5: 65535 empty-payload vertices succeed from a fresh
builder. -/
theorem C5_vertex_capacity_witness :
    (List.replicate 65535 ([] : List Unit)).length = 65535 ∧
    ∃ b', (MeshBuilder.new : MeshBuilder Unit).verts (List.replicate 65535 []) =
        some (List.range 65535, b') ∧ b'.next_index = 65535 :=
  ⟨List.length_replicate 65535 [],
   (C5_vertex_capacity Unit).2.1 (List.replicate 65535 []) (List.length_replicate 65535 [])⟩

/-- C10: whenever `extend` succeeds, the receiving builder's `next_index`
grows by the other builder's `next_index`, the vertex data is the
concatenation, and the other builder's indices are appended shifted up by
the old `next_index`, so each one refers to the same vertex as before. -/
theorem C10_extend_shifts (α : Type) (strideV : Nat) (b other b' : MeshBuilder α)
    (h : MeshBuilder.extend strideV b other = some b') :
    b'.next_index = b.next_index + other.next_index ∧
    b'.vertex_data = b.vertex_data ++ other.vertex_data ∧
    b'.indices = b.indices ++ other.indices.map (fun x => x + b.next_index) := by
  simp only [MeshBuilder.extend] at h
  split_ifs at h with h0 h1 h2
  · simp only [Option.some.injEq] at h
    subst h
    exact ⟨by simp [h1.2], rfl, rfl⟩

/-- Witness for C10 at concrete stride-1 builders. -/
theorem C10_extend_shifts_witness :
    MeshBuilder.extend 1 (⟨[7], [0], 1⟩ : MeshBuilder Nat) ⟨[8, 9], [0, 1], 2⟩ =
      some ⟨[7, 8, 9], [0, 1, 2], 3⟩ ∧
    ((⟨[7, 8, 9], [0, 1, 2], 3⟩ : MeshBuilder Nat).next_index =
        (⟨[7], [0], 1⟩ : MeshBuilder Nat).next_index +
          (⟨[8, 9], [0, 1], 2⟩ : MeshBuilder Nat).next_index ∧
     (⟨[7, 8, 9], [0, 1, 2], 3⟩ : MeshBuilder Nat).vertex_data =
        (⟨[7], [0], 1⟩ : MeshBuilder Nat).vertex_data ++
          (⟨[8, 9], [0, 1], 2⟩ : MeshBuilder Nat).vertex_data ∧
     (⟨[7, 8, 9], [0, 1, 2], 3⟩ : MeshBuilder Nat).indices =
        (⟨[7], [0], 1⟩ : MeshBuilder Nat).indices ++
          (⟨[8, 9], [0, 1], 2⟩ : MeshBuilder Nat).indices.map
            (fun x => x + (⟨[7], [0], 1⟩ : MeshBuilder Nat).next_index)) :=
  ⟨by decide,
   C10_extend_shifts Nat 1 ⟨[7], [0], 1⟩ ⟨[8, 9], [0, 1], 2⟩ ⟨[7, 8, 9], [0, 1, 2], 3⟩
     (by decide)⟩

theorem surf_bind_other_counts (s : Surf) (c : GlContextCache) :
    (s.bind c).2.countP isUseProgram = 0 ∧ (s.bind c).2.countP isVaoBind = 0 ∧
    (s.bind c).2.countP isUniformUpdate = 0 := by
  cases s with
  | screen s =>
    simp only [Surf.bind, ScreenSurface.bind]
    split <;> simp [List.countP, List.countP.go, isUseProgram, isVaoBind, isUniformUpdate,
      contextViewport]
  | offscreen f =>
    simp only [Surf.bind, Framebuffer.bind]
    split <;> simp [List.countP, List.countP.go, isUseProgram, isVaoBind, isUniformUpdate,
      contextViewport]

theorem drawmode_bind_counts (m : DrawMode) (c : GlContextCache) :
    (m.bind c).2.countP isUseProgram = 0 ∧ (m.bind c).2.countP isVaoBind = 0 ∧
    (m.bind c).2.countP isUniformUpdate = 0 := by
  cases m <;> simp only [DrawMode.bind] <;> split <;>
    simp [List.countP, List.countP.go, isUseProgram, isVaoBind, isUniformUpdate]

theorem program_bind_other_counts (p : GlProgram) (c : GlContextCache) :
    (p.bind c).2.countP isVaoBind = 0 ∧ (p.bind c).2.countP isUniformUpdate = 0 := by
  simp only [GlProgram.bind]
  split <;> simp [List.countP, List.countP.go, isVaoBind, isUniformUpdate]

/-- Counterexample to C6 as stated: `Mesh::bind` does not consult the
binding cache (there is no cached vertex-array slot), so drawing the same
ready mesh twice issues two device vertex-array binds — the second draw
still issues one even though the mesh's vertex array is current on the
device, while the program bind of the second draw is elided. -/
theorem C6_counterexample :
    ((Mesh.draw ⟨1, 2, 3, ⟨7, 8⟩, 3, DrawMode.Draw2D, 4⟩
        (Surf.screen ⟨⟨0, 0, 4, 4⟩, (4, 4), 4, 4, 9⟩) GlContextCache.new).2 ++
      (Mesh.draw ⟨1, 2, 3, ⟨7, 8⟩, 3, DrawMode.Draw2D, 4⟩
        (Surf.screen ⟨⟨0, 0, 4, 4⟩, (4, 4), 4, 4, 9⟩)
        (Mesh.draw ⟨1, 2, 3, ⟨7, 8⟩, 3, DrawMode.Draw2D, 4⟩
          (Surf.screen ⟨⟨0, 0, 4, 4⟩, (4, 4), 4, 4, 9⟩) GlContextCache.new).1).2).countP
      isVaoBind = 2 ∧
    (Mesh.draw ⟨1, 2, 3, ⟨7, 8⟩, 3, DrawMode.Draw2D, 4⟩
        (Surf.screen ⟨⟨0, 0, 4, 4⟩, (4, 4), 4, 4, 9⟩)
        (Mesh.draw ⟨1, 2, 3, ⟨7, 8⟩, 3, DrawMode.Draw2D, 4⟩
          (Surf.screen ⟨⟨0, 0, 4, 4⟩, (4, 4), 4, 4, 9⟩) GlContextCache.new).1).2.countP
      isVaoBind = 1 ∧
    (Mesh.draw ⟨1, 2, 3, ⟨7, 8⟩, 3, DrawMode.Draw2D, 4⟩
        (Surf.screen ⟨⟨0, 0, 4, 4⟩, (4, 4), 4, 4, 9⟩)
        (Mesh.draw ⟨1, 2, 3, ⟨7, 8⟩, 3, DrawMode.Draw2D, 4⟩
          (Surf.screen ⟨⟨0, 0, 4, 4⟩, (4, 4), 4, 4, 9⟩) GlContextCache.new).1).2.countP
      isUseProgram = 0 := by
  refine ⟨?_, ?_, ?_⟩ <;> decide

/-- C6 amended: for every draw of a Ready mesh, the program bind is elided
through the binding cache (no device `use_program` call exactly when the
program is already current), and the uniform values are pushed on every
call; the vertex-array bind, however, is not cached — exactly one device
vertex-array bind is issued on every draw. -/
theorem C6_draw_bind_discipline (m : Mesh) (surf : Surf) (c : GlContextCache)
    (hready : m.num_indices ≠ 0) :
    (Mesh.draw m surf c).2.countP isUseProgram =
      (if c.bound_program = some m.program.id then 0 else 1) ∧
    (Mesh.draw m surf c).2.countP isVaoBind = 1 ∧
    (Mesh.draw m surf c).2.countP isUniformUpdate = 1 := by
  obtain ⟨p1, p2⟩ := program_bind_other_counts m.program c
  obtain ⟨-, pUse⟩ := program_bind_step m.program c
  obtain ⟨s1, s2, s3⟩ := surf_bind_other_counts surf (m.program.bind c).1
  obtain ⟨d1, d2, d3⟩ :=
    drawmode_bind_counts m.draw_mode (surf.bind (m.program.bind c).1).1
  simp only [Mesh.draw, if_neg hready, Mesh.bind, List.countP_append]
  refine ⟨?_, ?_, ?_⟩ <;>
    simp [List.countP_cons, List.countP_nil, isUseProgram, isVaoBind, isUniformUpdate,
      p1, p2, pUse, s1, s2, s3, d1, d2, d3]

/-- Witness for the amended C6 at a concrete ready mesh whose program is
already bound. -/
theorem C6_draw_bind_discipline_witness :
    (3 : Nat) ≠ 0 ∧
    ((Mesh.draw ⟨1, 2, 3, ⟨7, 8⟩, 3, DrawMode.Draw2D, 4⟩
        (Surf.screen ⟨⟨0, 0, 4, 4⟩, (4, 4), 4, 4, 9⟩)
        { GlContextCache.new with bound_program := some 7 }).2.countP isUseProgram =
      (if ({ GlContextCache.new with bound_program := some 7 } :
            GlContextCache).bound_program = some (7 : Nat) then 0 else 1) ∧
     (Mesh.draw ⟨1, 2, 3, ⟨7, 8⟩, 3, DrawMode.Draw2D, 4⟩
        (Surf.screen ⟨⟨0, 0, 4, 4⟩, (4, 4), 4, 4, 9⟩)
        { GlContextCache.new with bound_program := some 7 }).2.countP isVaoBind = 1 ∧
     (Mesh.draw ⟨1, 2, 3, ⟨7, 8⟩, 3, DrawMode.Draw2D, 4⟩
        (Surf.screen ⟨⟨0, 0, 4, 4⟩, (4, 4), 4, 4, 9⟩)
        { GlContextCache.new with bound_program := some 7 }).2.countP isUniformUpdate = 1) :=
  ⟨by decide,
   C6_draw_bind_discipline ⟨1, 2, 3, ⟨7, 8⟩, 3, DrawMode.Draw2D, 4⟩
     (Surf.screen ⟨⟨0, 0, 4, 4⟩, (4, 4), 4, 4, 9⟩)
     { GlContextCache.new with bound_program := some 7 } (by decide)⟩

/-- C7: `draw` on a mesh with zero indices changes nothing and issues zero
device calls, and `draw_instanced` likewise whenever the mesh has zero
indices or the instance slice is empty. -/
theorem C7_empty_draw_noop (m : Mesh) (surf : Surf) (c : GlContextCache) :
    (m.num_indices = 0 → Mesh.draw m surf c = (c, [])) ∧
    (∀ (locOf : String → Nat) (instAttrs : Attributes) (n : Nat),
       m.num_indices = 0 ∨ n = 0 →
       Mesh.draw_instanced m surf locOf instAttrs n c = some (c, [])) := by
  constructor
  · intro h
    simp [Mesh.draw, h]
  · intro locOf instAttrs n h
    simp [Mesh.draw_instanced, h]

/-- Witness for C7 at a concrete empty mesh and an empty instance list. -/
theorem C7_empty_draw_noop_witness :
    (0 : Nat) = 0 ∧
    Mesh.draw ⟨1, 2, 3, ⟨7, 8⟩, 0, DrawMode.Draw2D, 4⟩
      (Surf.screen ⟨⟨0, 0, 4, 4⟩, (4, 4), 4, 4, 9⟩) GlContextCache.new =
      (GlContextCache.new, []) ∧
    Mesh.draw_instanced ⟨1, 2, 3, ⟨7, 8⟩, 5, DrawMode.Draw2D, 4⟩
      (Surf.screen ⟨⟨0, 0, 4, 4⟩, (4, 4), 4, 4, 9⟩) (fun _ => 0) [("offset", 2)] 0
      GlContextCache.new = some (GlContextCache.new, []) :=
  ⟨rfl,
   (C7_empty_draw_noop ⟨1, 2, 3, ⟨7, 8⟩, 0, DrawMode.Draw2D, 4⟩
      (Surf.screen ⟨⟨0, 0, 4, 4⟩, (4, 4), 4, 4, 9⟩) GlContextCache.new).1 rfl,
   (C7_empty_draw_noop ⟨1, 2, 3, ⟨7, 8⟩, 5, DrawMode.Draw2D, 4⟩
      (Surf.screen ⟨⟨0, 0, 4, 4⟩, (4, 4), 4, 4, 9⟩) GlContextCache.new).2
     (fun _ => 0) [("offset", 2)] 0 (Or.inr rfl)⟩

end WebglWrapper
